import Mathlib

/-!
Shallow embedding of the ISP mailbox tracer (`proxyclient/hv/trace_isp.py`) and
the multi-DART stream-command tracer (`proxyclient/m1n1/trace/multidart.py`).

Memory visible through the DART translator is modelled as a total function
`mem : Nat → Nat` whose values are reduced mod 256 at the read interface, so
every list produced by `ioread` is a list of bytes.  Python's arbitrary
precision signed integers (the `q` fields of `struct.unpack`) are modelled as
`Int` with an explicit two's-complement decode, and Python's bitwise `&`
against a nonnegative mask below `2 ^ 64` is modelled through `% 2 ^ 64`.
-/

namespace ISPTrace

/-- Little-endian integer value of a byte string, as `struct.unpack` of an
unsigned field or `int.from_bytes(_, "little")` computes it.  Each list element
is reduced mod 256, so the value of an `n`-element list is below `2 ^ (8 * n)`. -/
def leBytes : List Nat → Nat
  | [] => 0
  | b :: l => b % 256 + 256 * leBytes l

/-- Two's-complement reinterpretation of a 64-bit unsigned value, as
`struct.unpack` performs it for a little-endian `q` (signed 64-bit) field. -/
def toSigned64 (u : Nat) : Int :=
  if u < 2 ^ 63 then (u : Int) else (u : Int) - 2 ^ 64

/-- Python's bitwise `&` of a (possibly negative) arbitrary-precision integer
with a nonnegative mask below `2 ^ 64`: only the low 64 bits of the left
operand can survive, and for a negative left operand those bits are its
two's-complement residue `v % 2 ^ 64`. -/
def pyAnd64 (v : Int) (m : Nat) : Nat :=
  (v % (2 ^ 64 : Int)).toNat &&& m

/-- The slice `data[i : i + len]` of a Python byte string. -/
def sliceBytes (data : List Nat) (i len : Nat) : List Nat :=
  (data.drop i).take len

/-- Python `range(0, stop, step)` for a positive step, as used by the entry
and record loops (`stop` may be a Python int, hence `Int`). -/
def pyRange (stop : Int) (step : Nat) : List Nat :=
  List.range' 0 ((stop.toNat + step - 1) / step) step

/-- A translated read `dart.ioread(0, addr, size)`: `size` bytes of device
memory starting at `addr`. -/
def ioread (mem : Nat → Nat) (addr : Int) (size : Int) : List Nat :=
  (List.range size.toNat).map fun k => mem (addr.toNat + k) % 256

/-- Byte values of a Lean string literal, for the ASCII channel-name
comparisons of `ISPChannelMessage.get_command`. -/
def strBytes (s : String) : List Nat :=
  s.toList.map Char.toNat

/-- Python `bytes.rstrip(b"\x00")`: drop trailing NUL bytes. -/
def rstrip0 (l : List Nat) : List Nat :=
  (l.reverse.dropWhile (· = 0)).reverse

/-- The struct unpack `'<3q40x'` of `ISPCommand.__init__`: three signed
little-endian 64-bit fields at offsets 0, 8 and 16 of a 64-byte ring entry. -/
def unpack3q (data : List Nat) : Int × Int × Int :=
  (toSigned64 (leBytes (sliceBytes data 0 8)),
   toSigned64 (leBytes (sliceBytes data 8 8)),
   toSigned64 (leBytes (sliceBytes data 16 8)))

/-- The fields every command variant shares (`ISPCommand.__init__`). -/
structure ISPCommand where
  raw_value : Int
  value : Nat
  arg0 : Int
  arg1 : Int
deriving Repr, DecidableEq

/-- `ISPCommand.__init__`: unpack `'<3q40x'`, keep the raw first field, and
mask its low two bits (`value & 0xFFFFFFFFFFFFFFFC`) for use as an address. -/
def ISPCommand.ofData (data : List Nat) : ISPCommand :=
  let value := (unpack3q data).1
  let u0 := (unpack3q data).2.1
  let u1 := (unpack3q data).2.2
  { raw_value := value
    value := pyAnd64 value 0xFFFFFFFFFFFFFFFC
    arg0 := u0
    arg1 := u1 }

/- Bridge lemmas between the signed command fields and the unsigned wire
   bytes. -/

theorem leBytes_lt (l : List Nat) : leBytes l < 2 ^ (8 * l.length) := by
  induction l with
  | nil => simp [leBytes]
  | cons b l ih =>
    have hb : b % 256 < 256 := Nat.mod_lt _ (by norm_num)
    simp only [leBytes, List.length_cons]
    have : 8 * (l.length + 1) = 8 * l.length + 8 := by ring
    rw [this, pow_add]
    have h256 : (2 : Nat) ^ 8 = 256 := by norm_num
    calc b % 256 + 256 * leBytes l
        ≤ 255 + 256 * leBytes l := by omega
      _ < 256 * (leBytes l + 1) := by omega
      _ ≤ 256 * 2 ^ (8 * l.length) := by
          exact Nat.mul_le_mul_left _ (by omega)
      _ = 2 ^ (8 * l.length) * 2 ^ 8 := by rw [h256]; ring

theorem leBytes_lt_64 (l : List Nat) (h : l.length ≤ 8) : leBytes l < 2 ^ 64 := by
  have h1 := leBytes_lt l
  have h2 : (2 : Nat) ^ (8 * l.length) ≤ 2 ^ 64 :=
    Nat.pow_le_pow_right (by norm_num) (by omega)
  omega

theorem toSigned64_emod (u : Nat) (hu : u < 2 ^ 64) :
    ((toSigned64 u) % (2 ^ 64 : Int)).toNat = u := by
  unfold toSigned64
  split <;> omega

/-- Bit `i` of the address mask `0xFFFFFFFFFFFFFFFC`. -/
theorem mask_testBit (i : Nat) :
    (0xFFFFFFFFFFFFFFFC : Nat).testBit i = (decide (2 ≤ i) && decide (i < 64)) := by
  have h : (0xFFFFFFFFFFFFFFFC : Nat) = (2 ^ 62 - 1) <<< 2 := by
    rw [Nat.shiftLeft_eq]; norm_num
  rw [h, Nat.testBit_shiftLeft, Nat.testBit_two_pow_sub_one]
  by_cases h2 : 2 ≤ i
  · by_cases h64 : i < 64
    · have hlt : i - 2 < 62 := by omega
      simp [h2, h64, hlt]
    · have hlt : ¬ (i - 2 < 62) := by omega
      simp [h2, h64, hlt]
  · simp [h2]

/-- Masking with `0xFFFFFFFFFFFFFFFC` clears exactly the low two bits of a
64-bit value. -/
theorem and_mask_eq (u : Nat) (hu : u < 2 ^ 64) :
    u &&& 0xFFFFFFFFFFFFFFFC = u - u % 4 := by
  have h4 : u - u % 4 = (u >>> 2) <<< 2 := by
    rw [Nat.shiftLeft_eq, Nat.shiftRight_eq_div_pow]
    have := Nat.div_add_mod u 4
    have h22 : (2 : Nat) ^ 2 = 4 := by norm_num
    rw [h22]
    omega
  rw [h4]
  apply Nat.eq_of_testBit_eq
  intro i
  rw [Nat.testBit_land, mask_testBit, Nat.testBit_shiftLeft, Nat.testBit_shiftRight]
  by_cases h2 : 2 ≤ i
  · have hplus : 2 + (i - 2) = i := by omega
    by_cases h64 : i < 64
    · simp [h2, h64, hplus]
    · have hfalse : u.testBit i = false := by
        apply Nat.testBit_lt_two_pow
        calc u < 2 ^ 64 := hu
          _ ≤ 2 ^ i := Nat.pow_le_pow_right (by norm_num) (by omega)
      simp [h2, h64, hplus, hfalse]
  · simp [h2]

/-- The combined bridge: the Python expression `value & 0xFFFFFFFFFFFFFFFC`,
applied to the signed decode of an unsigned 64-bit wire value, is that wire
value with its low two bits cleared. -/
theorem pyAnd64_toSigned64 (u : Nat) (hu : u < 2 ^ 64) :
    pyAnd64 (toSigned64 u) 0xFFFFFFFFFFFFFFFC = u - u % 4 := by
  unfold pyAnd64
  rw [toSigned64_emod u hu]
  exact and_mask_eq u hu

/-- The two cursor directions of `MessageLookupType`. -/
inductive MessageLookupType where
  | LAST_READ
  | LAST_WRITE
deriving Repr, DecidableEq

/-- An `ISPChannel` object: the immutable descriptor fields assigned by
`ISPChannel.__init__` together with its mutable per-direction cursor and
dedup state.  `number_of_entries` and `address` are `Int` because the wire
decode unpacks them as signed 64-bit (`q`) fields. -/
structure ISPChannel where
  name : List Nat
  type : Nat
  source : Nat
  number_of_entries : Int
  entry_size : Nat
  address : Int
  read_entry_index : Nat
  write_entry_index : Nat
  last_read_entry : Option (List Nat)
  last_write_entry : Option (List Nat)
deriving Repr, DecidableEq

/-- `ISPChannel.__init__`: trim the raw name of trailing NULs and start with
both cursors at 0 and no last-seen entries. -/
def ISPChannel.init (name : List Nat) (_type : Nat) (source : Nat)
    (number_of_entries : Int) (entry_size : Nat) (address : Int) : ISPChannel :=
  { name := rstrip0 name
    type := _type
    source := source
    number_of_entries := number_of_entries
    entry_size := entry_size
    address := address
    read_entry_index := 0
    write_entry_index := 0
    last_read_entry := none
    last_write_entry := none }

/-- `self.size = self.number_of_entries * self.entry_size` (ring byte size). -/
def ISPChannel.size (c : ISPChannel) : Int :=
  c.number_of_entries * c.entry_size

/-- `self.doorbell = 1 << source`. -/
def ISPChannel.doorbell (c : ISPChannel) : Nat :=
  1 <<< c.source

/-- The cursor of the given direction. -/
def ISPChannel.cursor (c : ISPChannel) : MessageLookupType → Nat
  | .LAST_READ => c.read_entry_index
  | .LAST_WRITE => c.write_entry_index

/-- The last-seen entry buffer of the given direction. -/
def ISPChannel.lastSeen (c : ISPChannel) : MessageLookupType → Option (List Nat)
  | .LAST_READ => c.last_read_entry
  | .LAST_WRITE => c.last_write_entry

/-- Store a polled cursor and last-seen buffer back into the direction's
fields, as `get_message` does before returning. -/
def ISPChannel.withPoll (c : ISPChannel) (lt : MessageLookupType) (idx : Nat)
    (seen : Option (List Nat)) : ISPChannel :=
  match lt with
  | .LAST_READ => { c with read_entry_index := idx, last_read_entry := seen }
  | .LAST_WRITE => { c with write_entry_index := idx, last_write_entry := seen }

/-- A ring entry handed to the decoder (`ISPChannelMessage`). -/
structure ISPChannelMessage where
  index : Nat
  channel : ISPChannel
  data : List Nat
deriving Repr, DecidableEq

/-- The body of the `for i in range(0, self.size, self.entry_size)` loop of
`ISPChannel.get_message`: walk the entry offsets counting `message_index`
until it equals the direction's cursor `entry_index`; there, slice the entry,
dedup it against the last-seen buffer (first observation counts as new), and
either break with no entry or record the new entry and advance.  Returns the
optional `(message_index, entry_data)` pair, the final cursor before the
wraparound check, and the final last-seen buffer. -/
def getMessageLoop (entry_size entry_index : Nat) (last : Option (List Nat))
    (channel_data : List Nat) :
    List Nat → Nat → Option (Nat × List Nat) × Nat × Option (List Nat)
  | [], _ => (none, entry_index, last)
  | i :: rest, message_index =>
    if message_index = entry_index then
      let entry_data := sliceBytes channel_data i entry_size
      match last with
      | none => (some (message_index, entry_data), entry_index + 1, some entry_data)
      | some prev =>
        if prev ≠ entry_data then
          (some (message_index, entry_data), entry_index + 1, some entry_data)
        else
          (none, entry_index, some prev)
    else
      getMessageLoop entry_size entry_index last channel_data rest (message_index + 1)

/-- `ISPChannel.get_message`: read the whole ring through the translator,
run the cursor/dedup loop for the requested direction, apply the wraparound
check `if entry_index >= self.number_of_entries: entry_index = 0`, and store
the direction's new cursor and last-seen buffer. -/
def ISPChannel.get_message (self : ISPChannel) (lookup_type : MessageLookupType)
    (mem : Nat → Nat) : Option ISPChannelMessage × ISPChannel :=
  let channel_data := ioread mem self.address self.size
  let entry_index := self.cursor lookup_type
  let last := self.lastSeen lookup_type
  let r := getMessageLoop self.entry_size entry_index last channel_data
    (pyRange self.size self.entry_size) 0
  let ei := if (r.2.1 : Int) ≥ self.number_of_entries then 0 else r.2.1
  let self' := self.withPoll lookup_type ei r.2.2
  (r.1.map fun e => ISPChannelMessage.mk e.1 self' e.2, self')

/-- `ISPTerminalCommand.MAX_BUFFER_SIZE`. -/
def ISPTerminalCommand.MAX_BUFFER_SIZE : Nat := 0x80

/-- `ISPTerminalCommand.set_address`: a nonzero value becomes the new
class-level terminal buffer address. -/
def ISPTerminalCommand.set_address (buffer_address : Option Nat) (address : Nat) :
    Option Nat :=
  if address ≠ 0 then some address else buffer_address

/-- `ISPTerminalCommand.move_cursor`: advance a truthy (set and nonzero)
buffer address by `MAX_BUFFER_SIZE`. -/
def ISPTerminalCommand.move_cursor (buffer_address : Option Nat) : Option Nat :=
  match buffer_address with
  | some a => if a ≠ 0 then some (a + ISPTerminalCommand.MAX_BUFFER_SIZE) else some a
  | none => none

/-- An `ISPTerminalCommand`: the shared fields plus the text chunk read from
the terminal buffer.  `buffer_message = none` models the source raising on a
translated read from an unset (`None`) buffer address. -/
structure ISPTerminalCommand extends ISPCommand where
  buffer_message : Option (List Nat)
deriving Repr, DecidableEq

/-- `ISPTerminalCommand.__init__`: publish a nonzero `value` as the buffer
address, read `arg0` bytes from the current buffer address, then advance the
buffer address by `MAX_BUFFER_SIZE`.  Returns the command together with the
new class-level buffer address. -/
def ISPTerminalCommand.ofData (data : List Nat) (mem : Nat → Nat)
    (buffer_address : Option Nat) : ISPTerminalCommand × Option Nat :=
  let base := ISPCommand.ofData data
  let addr := ISPTerminalCommand.set_address buffer_address base.value
  let buf := match addr with
    | some a => some (ioread mem (a : Int) base.arg0)
    | none => none
  (⟨base, buf⟩, ISPTerminalCommand.move_cursor addr)

/-- An `ISPIOCommand`: `value` is an IOVA; if nonzero, 8 bytes are read from
it and kept as a little-endian integer. -/
structure ISPIOCommand extends ISPCommand where
  iova : Nat
  contents : Option Nat
deriving Repr, DecidableEq

/-- `ISPIOCommand.__init__`. -/
def ISPIOCommand.ofData (data : List Nat) (mem : Nat → Nat) : ISPIOCommand :=
  let base := ISPCommand.ofData data
  if base.value ≠ 0 then
    ⟨base, base.value, some (leBytes (ioread mem (base.value : Int) 0x8))⟩
  else
    ⟨base, base.value, none⟩

/-- An `ISPT2HBufferCommand`: same follow-up read shape as `ISPIOCommand`. -/
structure ISPT2HBufferCommand extends ISPCommand where
  iova : Nat
  contents : Option Nat
deriving Repr, DecidableEq

/-- `ISPT2HBufferCommand.__init__`. -/
def ISPT2HBufferCommand.ofData (data : List Nat) (mem : Nat → Nat) :
    ISPT2HBufferCommand :=
  let base := ISPCommand.ofData data
  if base.value ≠ 0 then
    ⟨base, base.value, some (leBytes (ioread mem (base.value : Int) 0x8))⟩
  else
    ⟨base, base.value, none⟩

/-- An `ISPSharedMallocCommand`: `value` is the address, `arg0` the size and
`arg1` the type tag; no follow-up reads. -/
structure ISPSharedMallocCommand extends ISPCommand where
  address : Nat
  size : Int
  type : Int
deriving Repr, DecidableEq

/-- `ISPSharedMallocCommand.__init__`. -/
def ISPSharedMallocCommand.ofData (data : List Nat) : ISPSharedMallocCommand :=
  let base := ISPCommand.ofData data
  ⟨base, base.value, base.arg0, base.arg1⟩

/-- The decoded command union produced by `ISPChannelMessage.get_command`. -/
inductive ISPDecodedCommand where
  | terminal : ISPTerminalCommand → ISPDecodedCommand
  | io : ISPIOCommand → ISPDecodedCommand
  | sharedMalloc : ISPSharedMallocCommand → ISPDecodedCommand
  | t2h : ISPT2HBufferCommand → ISPDecodedCommand
  | generic : ISPCommand → ISPDecodedCommand
deriving Repr, DecidableEq

/-- `ISPChannelMessage.get_command`: select the command variant by channel
name; unknown names decode to the generic `ISPCommand`.  Returns the decoded
command and the (possibly updated) terminal buffer address. -/
def ISPChannelMessage.get_command (self : ISPChannelMessage) (mem : Nat → Nat)
    (buffer_address : Option Nat) : ISPDecodedCommand × Option Nat :=
  if self.channel.name = strBytes "TERMINAL" then
    let r := ISPTerminalCommand.ofData self.data mem buffer_address
    (.terminal r.1, r.2)
  else if self.channel.name = strBytes "IO" then
    (.io (ISPIOCommand.ofData self.data mem), buffer_address)
  else if self.channel.name = strBytes "SHAREDMALLOC" then
    (.sharedMalloc (ISPSharedMallocCommand.ofData self.data), buffer_address)
  else if self.channel.name = strBytes "BUF_T2H" then
    (.t2h (ISPT2HBufferCommand.ofData self.data mem), buffer_address)
  else
    (.generic (ISPCommand.ofData self.data), buffer_address)

/-- `ISPChannel.get_commands`: poll one message in the given direction and
decode it; `get_command` always returns a (truthy) command object, so the
result is a singleton exactly when `get_message` produced a message. -/
def ISPChannel.get_commands (self : ISPChannel) (lookup_type : MessageLookupType)
    (mem : Nat → Nat) (buffer_address : Option Nat) :
    List ISPDecodedCommand × ISPChannel × Option Nat :=
  match self.get_message lookup_type mem with
  | (some message, self') =>
    let r := message.get_command mem buffer_address
    ([r.1], self', r.2)
  | (none, self') => ([], self', buffer_address)

/-- `ISPTracer.ALLOWED_CHANNELS`: the optional channel-name allow list; the
shipped configuration leaves it unset (`None`). -/
def ISPTracer.ALLOWED_CHANNELS : Option (List (List Nat)) := none

/-- The struct unpack `'<32s32x2I2q168x'` of one 256-byte channel record:
name bytes at 0, `u32` type at 0x40, `u32` source at 0x44, signed 64-bit
entry count at 0x48 and signed 64-bit base address at 0x50, all
little-endian; the remaining bytes are padding. -/
def unpackChannelRecord (rec : List Nat) : List Nat × Nat × Nat × Int × Int :=
  (sliceBytes rec 0 32,
   leBytes (sliceBytes rec 0x40 4),
   leBytes (sliceBytes rec 0x44 4),
   toSigned64 (leBytes (sliceBytes rec 0x48 8)),
   toSigned64 (leBytes (sliceBytes rec 0x50 8)))

/-- The channel-table branch of `ISPTracer.r_ISP_GPR0`: read
`number_of_channels * entry_length` bytes at the table IOVA, unpack each
record, build an `ISPChannel` with entry size 0x40, and keep it subject to
the (unset) allow-list filter. -/
def parseChannelTable (mem : Nat → Nat) (iova : Nat) (n entlen : Nat) :
    List ISPChannel :=
  let ch_tbl := ioread mem (iova : Int) ((n * entlen : Nat) : Int)
  (pyRange ((n * entlen : Nat) : Int) entlen).filterMap fun ch_offset =>
    let r := unpackChannelRecord (sliceBytes ch_tbl ch_offset entlen)
    let ch_entry := ISPChannel.init r.1 r.2.1 r.2.2.1 r.2.2.2.1 0x40 r.2.2.2.2
    match ISPTracer.ALLOWED_CHANNELS with
    | some allowed =>
      if allowed ≠ [] ∧ ¬ (ch_entry.name ∈ allowed) then none else some ch_entry
    | none => some ch_entry

/-- The tracer attributes touched by the GPR0 read handler.  The `Option`
fields start unset, mirroring attributes that do not exist before first
assignment. -/
structure ISPTracerState where
  number_of_channels : Option Nat
  channel_table_entry_length : Option Nat
  channel_table_iova : Option Nat
  channel_list : List ISPChannel
deriving Repr, DecidableEq

/-- `ISPTracer.r_ISP_GPR0`: the ACK magic `0x8042006` is only logged; a value
below 64 is stored as the channel count (with record length 0x100); any other
positive value is taken as the channel-table IOVA and re-parses the table.
`none` models the handler raising (accessing a channel count that was never
stored).  The translator is taken as present (`self.dart` truthy). -/
def ISPTracer.r_ISP_GPR0 (st : ISPTracerState) (mem : Nat → Nat) (v : Nat) :
    Option ISPTracerState :=
  if v = 0x8042006 then
    some st
  else if v < 64 then
    some { st with number_of_channels := some v,
                   channel_table_entry_length := some 0x100 }
  else if v > 0 then
    match st.number_of_channels, st.channel_table_entry_length with
    | some n, some entlen =>
      some { st with channel_table_iova := some v,
                     channel_list := parseChannelTable mem (v &&& 0xFFFFFFFF) n entlen }
    | _, _ => none
  else
    some st

/-- The channel loop of `ISPTracer.get_last_write_command`: poll (in the
write direction) and decode every channel whose doorbell value equals the
rung value, collecting the scanned names, the decoded commands, the updated
channels and the threaded terminal buffer address. -/
def getLastWriteLoop (mem : Nat → Nat) (doorbell_value : Nat) :
    List ISPChannel → Option Nat →
    List (List Nat) × List ISPDecodedCommand × List ISPChannel × Option Nat
  | [], st => ([], [], [], st)
  | ch :: rest, st =>
    if ch.doorbell = doorbell_value then
      let r := ch.get_commands .LAST_WRITE mem st
      let t := getLastWriteLoop mem doorbell_value rest r.2.2
      (ch.name :: t.1, r.1 ++ t.2.1, r.2.1 :: t.2.2.1, t.2.2.2)
    else
      let t := getLastWriteLoop mem doorbell_value rest st
      (t.1, t.2.1, ch :: t.2.2.1, t.2.2.2)

/-- `ISPTracer.get_last_write_command` (the doorbell-ring handler's worker):
an empty channel list does nothing; otherwise run the doorbell-filtered
write-direction poll over the whole list. -/
def ISPTracer.get_last_write_command (channel_list : List ISPChannel)
    (buffer_address : Option Nat) (mem : Nat → Nat) (doorbell_value : Nat) :
    List (List Nat) × List ISPDecodedCommand × List ISPChannel × Option Nat :=
  getLastWriteLoop mem doorbell_value channel_list buffer_address

/-- The channel loop of `ISPTracer.get_last_read_command`: poll (in the read
direction) and decode every channel for which `pending_irq >> (type & 1)` is
nonzero. -/
def getLastReadLoop (mem : Nat → Nat) (pending_irq : Nat) :
    List ISPChannel → Option Nat →
    List (List Nat) × List ISPDecodedCommand × List ISPChannel × Option Nat
  | [], st => ([], [], [], st)
  | ch :: rest, st =>
    if pending_irq >>> (ch.type &&& 1) ≠ 0 then
      let r := ch.get_commands .LAST_READ mem st
      let t := getLastReadLoop mem pending_irq rest r.2.2
      (ch.name :: t.1, r.1 ++ t.2.1, r.2.1 :: t.2.2.1, t.2.2.2)
    else
      let t := getLastReadLoop mem pending_irq rest st
      (t.1, t.2.1, ch :: t.2.2.1, t.2.2.2)

/-- `ISPTracer.get_last_read_command` (the interrupt-pending handler's
worker). -/
def ISPTracer.get_last_read_command (channel_list : List ISPChannel)
    (buffer_address : Option Nat) (mem : Nat → Nat) (pending_irq : Nat) :
    List (List Nat) × List ISPDecodedCommand × List ISPChannel × Option Nat :=
  getLastReadLoop mem pending_irq channel_list buffer_address

/-- The claim's reading of the interrupt-pending filter: the pending mask has
the channel's type bit (bit `type & 1`) set. -/
def typeBitMatches (pending _type : Nat) : Bool :=
  pending &&& (1 <<< (_type &&& 1)) ≠ 0

/-!
Multi-DART tracer (`proxyclient/m1n1/trace/multidart.py`).

Modelled from the spec: `RegMap.lookup_addr` and `DART.invalidate_cache` are
not under the sources here (they live in `m1n1.utils` / `m1n1.hw.dart`); per
the spec, a unit's register lookup matches exactly the addresses of its own
register address range, and invalidation drops all cached translations of
that unit.
-/

/-- One translation unit of the multi-DART tracer: its register address
range and its translation cache (resolved virtual-page to physical-page
pairs). -/
structure MDARTUnit where
  base : Nat
  limit : Nat
  pt_cache : List (Nat × Nat)
deriving Repr, DecidableEq

/-- Modelled from the spec: `RegMap.lookup_addr` resolves an absolute
address to a register of this unit exactly when the address falls in the
unit's register address range. -/
def MDARTUnit.lookup_addr (u : MDARTUnit) (addr : Nat) : Option Nat :=
  if u.base ≤ addr ∧ addr < u.limit then some (addr - u.base) else none

/-- Modelled from the spec: `DART.invalidate_cache` drops every cached
translation of the unit. -/
def MDARTUnit.invalidate_cache (u : MDARTUnit) : MDARTUnit :=
  { u with pt_cache := [] }

/-- The unit loop of `MDARTTracer.w_STREAM_COMMAND`: look the write address
up in each unit's register map in order; at the first unit whose range
matches, invalidate that unit's cache and return. -/
def streamCommandLoop : List MDARTUnit → Nat → List MDARTUnit
  | [], _ => []
  | u :: rest, addr =>
    match u.lookup_addr addr with
    | some _ => u.invalidate_cache :: rest
    | none => u :: streamCommandLoop rest addr

/-- `MDARTTracer.w_STREAM_COMMAND`: only a write whose decoded
`STREAM_COMMAND` value has the `INVALIDATE` field set does anything; it
invalidates the cache of the first (unique, when ranges are disjoint) unit
whose register address range contains the written address. -/
def MDARTTracer.w_STREAM_COMMAND (units : List MDARTUnit)
    (invalidate : Bool) (addr : Nat) : List MDARTUnit :=
  if invalidate then streamCommandLoop units addr else units

/- Helper lemmas on the cursor/dedup loop. -/

theorem withPoll_self (ch : ISPChannel) (lt : MessageLookupType) :
    ch.withPoll lt (ch.cursor lt) (ch.lastSeen lt) = ch := by
  cases lt <;> rfl

theorem pyRange_mul (n es : Nat) (h : 0 < es) :
    pyRange ((n * es : Nat) : Int) es = List.range' 0 n es := by
  unfold pyRange
  congr 1
  rw [Int.toNat_natCast]
  have h1 : n * es + es - 1 = (es - 1) + n * es := by omega
  rw [h1, Nat.add_mul_div_right _ _ h, Nat.div_eq_of_lt (by omega)]
  omega

theorem getMessageLoop_range' (es idx : Nat) (last : Option (List Nat))
    (data : List Nat) :
    ∀ (k s m : Nat), m ≤ idx → idx < m + k →
    getMessageLoop es idx last data (List.range' s k es) m =
      (match last with
       | none =>
         (some (idx, sliceBytes data (s + (idx - m) * es) es), idx + 1,
          some (sliceBytes data (s + (idx - m) * es) es))
       | some prev =>
         if prev ≠ sliceBytes data (s + (idx - m) * es) es then
           (some (idx, sliceBytes data (s + (idx - m) * es) es), idx + 1,
            some (sliceBytes data (s + (idx - m) * es) es))
         else (none, idx, some prev)) := by
  intro k
  induction k with
  | zero => intro s m _ h2; omega
  | succ k ih =>
    intro s m h1 h2
    rw [List.range'_succ]
    by_cases hm : m = idx
    · subst hm
      have h0 : m - m = 0 := Nat.sub_self m
      rw [h0, Nat.zero_mul, Nat.add_zero]
      simp only [getMessageLoop, if_pos rfl]
      simp
    · have hlt : m < idx := by omega
      simp only [getMessageLoop, if_neg hm]
      rw [ih (s + es) (m + 1) (by omega) (by omega)]
      have harith : s + es + (idx - (m + 1)) * es = s + (idx - m) * es := by
        have h : idx - (m + 1) + 1 = idx - m := by omega
        calc s + es + (idx - (m + 1)) * es
            = s + ((idx - (m + 1)) + 1) * es := by ring
          _ = s + (idx - m) * es := by rw [h]
      rw [harith]

/-- The ring entry at the direction's cursor, sliced out of a full-ring
translated read, as `get_message` locates it. -/
def entryAtCursor (ch : ISPChannel) (lt : MessageLookupType) (mem : Nat → Nat) :
    List Nat :=
  sliceBytes (ioread mem ch.address ch.size) (ch.cursor lt * ch.entry_size)
    ch.entry_size

/-- Cursor advance by one position with wraparound to 0 after
`number_of_entries - 1`. -/
def advanceWrap (cursor n : Nat) : Nat :=
  if cursor + 1 ≥ n then 0 else cursor + 1

/-- Closed form of `get_message` under the cursor invariant. -/
theorem get_message_closed_form (ch : ISPChannel) (mem : Nat → Nat)
    (lt : MessageLookupType) (n : Nat)
    (hn : ch.number_of_entries = (n : Int)) (hes : 0 < ch.entry_size)
    (hidx : ch.cursor lt < n) :
    ch.get_message lt mem =
      (match ch.lastSeen lt with
       | none =>
         (some ⟨ch.cursor lt,
                ch.withPoll lt (advanceWrap (ch.cursor lt) n)
                  (some (entryAtCursor ch lt mem)),
                entryAtCursor ch lt mem⟩,
          ch.withPoll lt (advanceWrap (ch.cursor lt) n)
            (some (entryAtCursor ch lt mem)))
       | some prev =>
         if prev ≠ entryAtCursor ch lt mem then
           (some ⟨ch.cursor lt,
                  ch.withPoll lt (advanceWrap (ch.cursor lt) n)
                    (some (entryAtCursor ch lt mem)),
                  entryAtCursor ch lt mem⟩,
            ch.withPoll lt (advanceWrap (ch.cursor lt) n)
              (some (entryAtCursor ch lt mem)))
         else (none, ch.withPoll lt (ch.cursor lt) (some prev))) := by
  have hsize : ch.size = ((n * ch.entry_size : Nat) : Int) := by
    unfold ISPChannel.size
    rw [hn]
    push_cast
    ring
  have hrange : pyRange ch.size ch.entry_size = List.range' 0 n ch.entry_size := by
    rw [hsize]
    exact pyRange_mul n ch.entry_size hes
  have hloop := getMessageLoop_range' ch.entry_size (ch.cursor lt) (ch.lastSeen lt)
    (ioread mem ch.address ch.size) n 0 0 (Nat.zero_le _) (by omega)
  simp only [Nat.sub_zero, Nat.zero_add] at hloop
  simp only [ISPChannel.get_message, hrange, hloop]
  have hcast : ((n : Int) ≤ (ch.cursor lt : Int) + 1) ↔ (n ≤ ch.cursor lt + 1) := by
    exact_mod_cast Iff.rfl
  rcases hls : ch.lastSeen lt with _ | prev
  · simp [entryAtCursor, advanceWrap, hn, ge_iff_le, Nat.cast_le, hcast]
  · by_cases hp : prev = sliceBytes (ioread mem ch.address ch.size)
        (ch.cursor lt * ch.entry_size) ch.entry_size
    · have hni : ¬ ((n : Int) ≤ (ch.cursor lt : Int)) := by
        exact_mod_cast Nat.not_le.mpr (by omega)
      simp [entryAtCursor, hp, hn, ge_iff_le, hni]
    · simp [entryAtCursor, advanceWrap, hp, hn, ge_iff_le, Nat.cast_le, hcast]

/-- C1: For every channel and direction (read or write), one poll of
`ISPChannel.get_message` reads the full ring, compares the entry at that
direction's stored cursor index byte-for-byte to that direction's last-seen
buffer; if they are identical it returns no message and leaves the channel —
cursor included — unchanged; if they differ, or no last-seen buffer exists
yet, it returns exactly one message carrying the new entry bytes, stores
those bytes as last-seen, and advances that direction's cursor by exactly
one position, wrapping to 0 after `number_of_entries - 1`. -/
theorem getMessage_cursor_dedup (ch : ISPChannel) (mem : Nat → Nat)
    (lt : MessageLookupType) (n : Nat)
    (hn : ch.number_of_entries = (n : Int)) (hes : 0 < ch.entry_size)
    (hidx : ch.cursor lt < n) :
    (ch.lastSeen lt = some (entryAtCursor ch lt mem) →
      ch.get_message lt mem = (none, ch)) ∧
    (ch.lastSeen lt ≠ some (entryAtCursor ch lt mem) →
      ch.get_message lt mem =
        (some ⟨ch.cursor lt,
               ch.withPoll lt (advanceWrap (ch.cursor lt) n)
                 (some (entryAtCursor ch lt mem)),
               entryAtCursor ch lt mem⟩,
         ch.withPoll lt (advanceWrap (ch.cursor lt) n)
           (some (entryAtCursor ch lt mem)))) := by
  rw [get_message_closed_form ch mem lt n hn hes hidx]
  constructor
  · intro h
    rw [h]
    simp only [ne_eq, not_true_eq_false, if_false, reduceIte]
    rw [← h, withPoll_self]
  · intro h
    rcases hls : ch.lastSeen lt with _ | prev
    · simp
    · rw [hls] at h
      have hne : prev ≠ entryAtCursor ch lt mem := fun he => h (by rw [he])
      simp [hne]

/-- Witness channel for C1: two 1-byte entries at address 0. -/
def cW1 : ISPChannel := ISPChannel.init [65] 0 3 2 1 0

/-- Witness memory for C1. -/
def memW1 : Nat → Nat := fun a => a + 1

theorem getMessage_cursor_dedup_witness :
    cW1.lastSeen .LAST_READ ≠ some (entryAtCursor cW1 .LAST_READ memW1) ∧
    cW1.get_message .LAST_READ memW1 =
      (some ⟨0, cW1.withPoll .LAST_READ 1 (some [1]), [1]⟩,
       cW1.withPoll .LAST_READ 1 (some [1])) := by
  refine ⟨by decide, ?_⟩
  have h := (getMessage_cursor_dedup cW1 memW1 .LAST_READ 2 (by decide) (by decide)
    (by decide)).2 (by decide)
  rw [h]
  decide

/- Length bound for the value field. -/

theorem sliceBytes_length_le (data : List Nat) (i len : Nat) :
    (sliceBytes data i len).length ≤ len := by
  unfold sliceBytes
  simp [List.length_take]

/-- C5: For every 64-byte channel ring entry and in every command variant,
the decoder interprets the first 8 bytes as the little-endian value field
with its low 2 bits cleared before use as an address, the next 8 bytes as
`arg0`, and the next 8 as `arg1`; in particular a raw value field of
`0xFFFFFFFFFFFFFFFF` decodes to the address `0xFFFFFFFFFFFFFFFC`. -/
theorem ISPCommand_field_layout (data : List Nat) :
    (ISPCommand.ofData data).value =
      leBytes (sliceBytes data 0 8) - leBytes (sliceBytes data 0 8) % 4 ∧
    (ISPCommand.ofData data).value % 4 = 0 ∧
    (ISPCommand.ofData data).arg0 = toSigned64 (leBytes (sliceBytes data 8 8)) ∧
    (ISPCommand.ofData data).arg1 = toSigned64 (leBytes (sliceBytes data 16 8)) ∧
    (∀ mem : Nat → Nat,
      (ISPIOCommand.ofData data mem).toISPCommand = ISPCommand.ofData data) ∧
    (∀ mem : Nat → Nat,
      (ISPT2HBufferCommand.ofData data mem).toISPCommand = ISPCommand.ofData data) ∧
    (ISPSharedMallocCommand.ofData data).toISPCommand = ISPCommand.ofData data ∧
    (∀ (mem : Nat → Nat) (st : Option Nat),
      ((ISPTerminalCommand.ofData data mem st).1).toISPCommand = ISPCommand.ofData data) ∧
    (ISPCommand.ofData (List.replicate 24 0xFF)).value = 0xFFFFFFFFFFFFFFFC := by
  have hu : leBytes (sliceBytes data 0 8) < 2 ^ 64 :=
    leBytes_lt_64 _ (sliceBytes_length_le data 0 8)
  have hval : (ISPCommand.ofData data).value =
      leBytes (sliceBytes data 0 8) - leBytes (sliceBytes data 0 8) % 4 := by
    unfold ISPCommand.ofData unpack3q
    exact pyAnd64_toSigned64 _ hu
  refine ⟨hval, ?_, rfl, rfl, ?_, ?_, rfl, ?_, by decide⟩
  · rw [hval]
    omega
  · intro mem
    unfold ISPIOCommand.ofData
    dsimp only
    split <;> rfl
  · intro mem
    unfold ISPT2HBufferCommand.ofData
    dsimp only
    split <;> rfl
  · intro mem st
    rfl

/- Helper lemmas on the channel-table parse. -/

theorem filterMap_some_eq_map {α β : Type} (f : α → β) (l : List α) :
    l.filterMap (fun a => some (f a)) = l.map f := by
  induction l with
  | nil => rfl
  | cons a l ih => simp [List.filterMap_cons, ih]

theorem sliceBytes_sliceBytes (t : List Nat) (a b c d : Nat) (h : c + d ≤ b) :
    sliceBytes (sliceBytes t a b) c d = sliceBytes t (a + c) d := by
  unfold sliceBytes
  rw [List.drop_take, List.take_take, List.drop_drop]
  congr 1
  omega

theorem parseChannelTable_eq_map (mem : Nat → Nat) (iova n entlen : Nat) :
    parseChannelTable mem iova n entlen =
      (pyRange ((n * entlen : Nat) : Int) entlen).map fun ch_offset =>
        let r := unpackChannelRecord
          (sliceBytes (ioread mem (iova : Int) ((n * entlen : Nat) : Int)) ch_offset entlen)
        ISPChannel.init r.1 r.2.1 r.2.2.1 r.2.2.2.1 0x40 r.2.2.2.2 := by
  unfold parseChannelTable ISPTracer.ALLOWED_CHANNELS
  exact filterMap_some_eq_map _ _

theorem parseChannelTable_length (mem : Nat → Nat) (iova n entlen : Nat)
    (h : 0 < entlen) : (parseChannelTable mem iova n entlen).length = n := by
  rw [parseChannelTable_eq_map, List.length_map, pyRange_mul n entlen h,
    List.length_range']

theorem record_slice (tbl : List Nat) (j c d : Nat) (h : c + d ≤ 0x100) :
    sliceBytes (sliceBytes tbl (0 + 0x100 * j) 0x100) c d =
      sliceBytes tbl (0x100 * j + c) d := by
  rw [sliceBytes_sliceBytes _ _ _ _ _ h]
  congr 1
  omega

/-- C2: For every channel-table fetch, discovery reads
`channel_count * 256` bytes and parses each 256-byte record at the exact
wire offsets: the name bytes at offset 0 (trimmed of trailing NULs), a
32-bit type at 0x40, a 32-bit source at 0x44, a 64-bit entry count at 0x48
and a 64-bit base address at 0x50, all little-endian (the 64-bit fields are
decoded as signed `q` fields, which agrees with the unsigned reading below
`2 ^ 63`), with the remaining record bytes ignored; the resulting channels
appear in table order with fresh cursor state. -/
theorem parseChannelTable_wire_format (mem : Nat → Nat) (iova n : Nat) :
    (parseChannelTable mem iova n 0x100).length = n ∧
    (∀ j, j < n →
      (parseChannelTable mem iova n 0x100)[j]? =
        some { name := rstrip0 (sliceBytes
                 (ioread mem (iova : Int) ((n * 0x100 : Nat) : Int)) (0x100 * j + 0) 32)
               type := leBytes (sliceBytes
                 (ioread mem (iova : Int) ((n * 0x100 : Nat) : Int)) (0x100 * j + 0x40) 4)
               source := leBytes (sliceBytes
                 (ioread mem (iova : Int) ((n * 0x100 : Nat) : Int)) (0x100 * j + 0x44) 4)
               number_of_entries := toSigned64 (leBytes (sliceBytes
                 (ioread mem (iova : Int) ((n * 0x100 : Nat) : Int)) (0x100 * j + 0x48) 8))
               entry_size := 0x40
               address := toSigned64 (leBytes (sliceBytes
                 (ioread mem (iova : Int) ((n * 0x100 : Nat) : Int)) (0x100 * j + 0x50) 8))
               read_entry_index := 0
               write_entry_index := 0
               last_read_entry := none
               last_write_entry := none }) := by
  refine ⟨parseChannelTable_length mem iova n 0x100 (by norm_num), ?_⟩
  intro j hj
  rw [parseChannelTable_eq_map, List.getElem?_map, pyRange_mul n 0x100 (by norm_num),
    List.getElem?_eq_getElem (by simpa using hj), List.getElem_range']
  simp only [Option.map_some']
  unfold unpackChannelRecord ISPChannel.init
  dsimp only
  rw [record_slice _ j 0 32 (by norm_num), record_slice _ j 0x40 4 (by norm_num),
    record_slice _ j 0x44 4 (by norm_num), record_slice _ j 0x48 8 (by norm_num),
    record_slice _ j 0x50 8 (by norm_num)]

/-- Witness memory for C2: one channel record (name byte `A`, source 3,
entry count 2, base address 0x10) at IOVA 0. -/
def memW2 : Nat → Nat := fun a =>
  if a = 0 then 65
  else if a = 0x44 then 3
  else if a = 0x48 then 2
  else if a = 0x50 then 0x10
  else 0

theorem parseChannelTable_wire_format_witness :
    (0 : Nat) < 1 ∧
    (parseChannelTable memW2 0 1 0x100)[0]? =
      some (ISPChannel.init [65] 0 3 2 0x40 0x10) := by
  refine ⟨by norm_num, ?_⟩
  have h := (parseChannelTable_wire_format memW2 0 1).2 0 (by norm_num)
  rw [h]
  decide

/- C3 and C4: the GPR0 event router. -/

theorem parseChannelTable_fresh (mem : Nat → Nat) (iova n entlen : Nat) :
    ∀ ch ∈ parseChannelTable mem iova n entlen,
      ch.read_entry_index = 0 ∧ ch.write_entry_index = 0 ∧
      ch.last_read_entry = none ∧ ch.last_write_entry = none := by
  intro ch hch
  rw [parseChannelTable_eq_map] at hch
  simp only [List.mem_map] at hch
  obtain ⟨off, _, rfl⟩ := hch
  exact ⟨rfl, rfl, rfl, rfl⟩

/-- All-zero memory. -/
def memZero : Nat → Nat := fun _ => 0

/-- A discovered channel used in the C3 counterexample state. -/
def cexChannel : ISPChannel := ISPChannel.init [65] 0 3 2 0x40 0x10

/-- C3 counterexample state: a stored channel count and a nonempty channel
list. -/
def cexState3 : ISPTracerState := ⟨some 7, some 0x100, none, [cexChannel]⟩

/-- C3 counterexample: the GPR0 value `0x8042006` is at least 64, yet the
handler treats it as the ACK magic and leaves the whole tracer state — the
previously discovered channel list included — untouched: no re-parse, no
discard, no cursor reset, contradicting the claim that every value at least
64 is interpreted as the channel-table IOVA. -/
theorem gpr0_ack_counterexample :
    64 ≤ 0x8042006 ∧
    cexState3.channel_list ≠ [] ∧
    ISPTracer.r_ISP_GPR0 cexState3 memZero 0x8042006 = some cexState3 := by
  refine ⟨by norm_num, by decide, by decide⟩

/-- C3 (amended): a GPR0 event with value in the open range (0, 64) stores
the value as the channel count; a subsequent event with value at least 64,
other than the ACK magic `0x8042006` (which is only logged), is interpreted
as the channel-table IOVA and triggers a full re-parse, replacing the
previous channel list with freshly parsed channels whose read and write
cursors and last-seen buffers are all reset. -/
theorem gpr0_routing (st : ISPTracerState) (mem : Nat → Nat) (v : Nat) :
    (0 < v → v < 64 →
      ISPTracer.r_ISP_GPR0 st mem v =
        some { st with number_of_channels := some v,
                       channel_table_entry_length := some 0x100 }) ∧
    (64 ≤ v → v ≠ 0x8042006 →
      ∀ n entlen, st.number_of_channels = some n →
        st.channel_table_entry_length = some entlen →
        ISPTracer.r_ISP_GPR0 st mem v =
          some { st with channel_table_iova := some v,
                         channel_list :=
                           parseChannelTable mem (v &&& 0xFFFFFFFF) n entlen } ∧
        ∀ ch ∈ parseChannelTable mem (v &&& 0xFFFFFFFF) n entlen,
          ch.read_entry_index = 0 ∧ ch.write_entry_index = 0 ∧
          ch.last_read_entry = none ∧ ch.last_write_entry = none) := by
  constructor
  · intro h0 h64
    have hack : v ≠ 0x8042006 := by omega
    simp [ISPTracer.r_ISP_GPR0, hack, h64]
  · intro h64 hack n entlen hn hl
    have hlt : ¬ (v < 64) := by omega
    have hpos : v > 0 := by omega
    refine ⟨?_, parseChannelTable_fresh mem (v &&& 0xFFFFFFFF) n entlen⟩
    simp [ISPTracer.r_ISP_GPR0, hack, hlt, hpos, hn, hl]

/-- Witness state for C3. -/
def stW3 : ISPTracerState := ⟨some 1, some 0x100, none, []⟩

theorem gpr0_routing_witness :
    ISPTracer.r_ISP_GPR0 stW3 memW2 5 =
      some { stW3 with number_of_channels := some 5,
                       channel_table_entry_length := some 0x100 } ∧
    ISPTracer.r_ISP_GPR0 stW3 memW2 0x1000 =
      some { stW3 with channel_table_iova := some 0x1000,
                       channel_list :=
                         parseChannelTable memW2 (0x1000 &&& 0xFFFFFFFF) 1 0x100 } := by
  constructor
  · exact (gpr0_routing stW3 memW2 5).1 (by norm_num) (by norm_num)
  · exact ((gpr0_routing stW3 memW2 0x1000).2 (by norm_num) (by norm_num)
      1 0x100 rfl rfl).1

/-- C4 counterexample state: a stored channel count of 100, above the sane
bound of 64 named in the source comment. -/
def cexState4 : ISPTracerState := ⟨some 100, some 0x100, none, []⟩

/-- C4 counterexample: with a stored channel count of 100 — exceeding the
sane upper bound of 64 — a table event does not fail with any
`MalformedChannelTable`-like error before reading: the handler reads and
parses the full `100 * 256`-byte table and produces 100 channels. -/
theorem gpr0_no_guard_counterexample :
    64 < 100 ∧
    ISPTracer.r_ISP_GPR0 cexState4 memZero 0x10000 =
      some { cexState4 with
               channel_table_iova := some 0x10000,
               channel_list :=
                 parseChannelTable memZero (0x10000 &&& 0xFFFFFFFF) 100 0x100 } ∧
    (parseChannelTable memZero (0x10000 &&& 0xFFFFFFFF) 100 0x100).length = 100 := by
  refine ⟨by norm_num, rfl, parseChannelTable_length _ _ _ _ (by norm_num)⟩

/-- C4 (amended): the handler has no channel-count guard and no
`MalformedChannelTable` error: for any stored channel count `n` — including
counts beyond any sane bound — a table event issues the translator read and
parses `n * 256` bytes into exactly `n` channels; separately, the router can
only ever store channel counts below 64, since any larger GPR0 value is
routed as an ACK or a table IOVA, never as a count.  Translator-read
failures are not caught by the handler (the embedding's memory is total;
the handler contains no error handling to model). -/
theorem gpr0_no_count_guard (st : ISPTracerState) (mem : Nat → Nat) (v : Nat)
    (n entlen : Nat) (hn : st.number_of_channels = some n)
    (hl : st.channel_table_entry_length = some entlen) (hentlen : 0 < entlen)
    (hv : 64 ≤ v) (hack : v ≠ 0x8042006) :
    (∃ st', ISPTracer.r_ISP_GPR0 st mem v = some st' ∧
      st'.channel_list.length = n) ∧
    (∀ w st', ISPTracer.r_ISP_GPR0 st mem w = some st' →
      st'.number_of_channels = st.number_of_channels ∨
      ∃ m, m < 64 ∧ st'.number_of_channels = some m) := by
  constructor
  · have hlt : ¬ (v < 64) := by omega
    have hpos : v > 0 := by omega
    have heq : ISPTracer.r_ISP_GPR0 st mem v =
        some { st with
                 channel_table_iova := some v,
                 channel_list := parseChannelTable mem (v &&& 0xFFFFFFFF) n entlen } := by
      simp [ISPTracer.r_ISP_GPR0, hack, hlt, hpos, hn, hl]
    exact ⟨_, heq, parseChannelTable_length _ _ _ _ hentlen⟩
  · intro w st' hw
    unfold ISPTracer.r_ISP_GPR0 at hw
    split_ifs at hw with hw1 hw2 hw3
    · left
      cases hw
      rfl
    · right
      exact ⟨w, hw2, by cases hw; rfl⟩
    · rcases hmn : st.number_of_channels with _ | m <;>
        rcases hml : st.channel_table_entry_length with _ | el <;>
        rw [hmn, hml] at hw <;> simp at hw
      · left
        rw [← hw]
    · left
      cases hw
      rfl

/-- Witness state for C4. -/
def stW4 : ISPTracerState := ⟨some 2, some 0x100, none, []⟩

theorem gpr0_no_count_guard_witness :
    (∃ st', ISPTracer.r_ISP_GPR0 stW4 memZero 0x2000 = some st' ∧
      st'.channel_list.length = 2) ∧
    (∀ w st', ISPTracer.r_ISP_GPR0 stW4 memZero w = some st' →
      st'.number_of_channels = stW4.number_of_channels ∨
      ∃ m, m < 64 ∧ st'.number_of_channels = some m) :=
  gpr0_no_count_guard stW4 memZero 0x2000 2 0x100 rfl rfl (by norm_num)
    (by norm_num) (by norm_num)

/- C6: the Terminal command. -/

/-- C6 counterexample entry: value field 0x5000, arg0 field 16. -/
def cexData6 : List Nat :=
  [0x00, 0x50, 0, 0, 0, 0, 0, 0] ++ [16, 0, 0, 0, 0, 0, 0, 0] ++
    List.replicate 48 0

/-- C6 counterexample: a Terminal message with nonzero value field 0x5000
and `arg0 = 16` makes the decoder read 16 bytes — the message's `arg0` —
from the translator, not a fixed-size chunk of 128 bytes. -/
theorem terminal_chunk_counterexample :
    ((ISPTerminalCommand.ofData cexData6 memZero none).1.buffer_message.map
      List.length) = some 16 ∧
    (16 : Nat) ≠ ISPTerminalCommand.MAX_BUFFER_SIZE := by
  refine ⟨by decide, by decide⟩

/-- C6 (amended): for every Terminal-channel message, a nonzero decoded
value field becomes the new current terminal buffer address, and a chunk of
`arg0` bytes (not a fixed 128) is read through the translator starting at
that address; a zero value field reuses the previously remembered address
for the read; in both cases the remembered address is then advanced by the
fixed chunk size `MAX_BUFFER_SIZE = 128`, so it moves on every message whose
address is set. -/
theorem terminal_command_spec (data : List Nat) (mem : Nat → Nat)
    (st : Option Nat) :
    ((ISPCommand.ofData data).value ≠ 0 →
      (ISPTerminalCommand.ofData data mem st).1.buffer_message =
        some (ioread mem ((ISPCommand.ofData data).value : Int)
          (ISPCommand.ofData data).arg0) ∧
      (ISPTerminalCommand.ofData data mem st).2 =
        some ((ISPCommand.ofData data).value +
          ISPTerminalCommand.MAX_BUFFER_SIZE)) ∧
    ((ISPCommand.ofData data).value = 0 →
      ∀ a, st = some a → a ≠ 0 →
        (ISPTerminalCommand.ofData data mem st).1.buffer_message =
          some (ioread mem (a : Int) (ISPCommand.ofData data).arg0) ∧
        (ISPTerminalCommand.ofData data mem st).2 =
          some (a + ISPTerminalCommand.MAX_BUFFER_SIZE)) := by
  constructor
  · intro h
    unfold ISPTerminalCommand.ofData ISPTerminalCommand.set_address
      ISPTerminalCommand.move_cursor
    simp [h]
  · intro h a hst ha
    subst hst
    unfold ISPTerminalCommand.ofData ISPTerminalCommand.set_address
      ISPTerminalCommand.move_cursor
    simp [h, ha]

/-- Witness entry for C6: all-zero entry (value 0, arg0 0). -/
def dataW6 : List Nat := List.replicate 64 0

theorem terminal_command_spec_witness :
    (ISPCommand.ofData dataW6).value = 0 ∧
    (ISPTerminalCommand.ofData dataW6 memZero (some 0x40)).1.buffer_message =
      some (ioread memZero (0x40 : Int) (ISPCommand.ofData dataW6).arg0) ∧
    (ISPTerminalCommand.ofData dataW6 memZero (some 0x40)).2 =
      some (0x40 + ISPTerminalCommand.MAX_BUFFER_SIZE) := by
  have h := (terminal_command_spec dataW6 memZero (some 0x40)).2 (by decide)
    0x40 rfl (by decide)
  exact ⟨by decide, h.1, h.2⟩

/- C7 and C8: the doorbell-ring and interrupt-pending pollers. -/

theorem get_commands_channel (ch : ISPChannel) (lt : MessageLookupType)
    (mem : Nat → Nat) (st : Option Nat) :
    (ch.get_commands lt mem st).2.1 = (ch.get_message lt mem).2 := by
  unfold ISPChannel.get_commands
  rcases h : ch.get_message lt mem with ⟨msg, ch'⟩
  rcases msg with _ | m <;> rfl

theorem getLastWriteLoop_names (mem : Nat → Nat) (v : Nat) :
    ∀ (chs : List ISPChannel) (st : Option Nat),
      (getLastWriteLoop mem v chs st).1 =
        (chs.filter fun ch => ch.doorbell = v).map (·.name) := by
  intro chs
  induction chs with
  | nil => intro st; rfl
  | cons ch rest ih =>
    intro st
    unfold getLastWriteLoop
    by_cases h : ch.doorbell = v
    · simp [h, List.filter_cons, ih]
    · simp [h, List.filter_cons, ih]

theorem getLastWriteLoop_channels (mem : Nat → Nat) (v : Nat) :
    ∀ (chs : List ISPChannel) (st : Option Nat),
      (getLastWriteLoop mem v chs st).2.2.1 =
        chs.map fun ch =>
          if ch.doorbell = v then (ch.get_message .LAST_WRITE mem).2 else ch := by
  intro chs
  induction chs with
  | nil => intro st; rfl
  | cons ch rest ih =>
    intro st
    unfold getLastWriteLoop
    by_cases h : ch.doorbell = v
    · simp [h, ih, get_commands_channel]
    · simp [h, ih]

theorem getLastWriteLoop_no_match (mem : Nat → Nat) (v : Nat) :
    ∀ (chs : List ISPChannel) (st : Option Nat),
      (∀ ch ∈ chs, ch.doorbell ≠ v) →
      getLastWriteLoop mem v chs st = ([], [], chs, st) := by
  intro chs
  induction chs with
  | nil => intro st _; rfl
  | cons ch rest ih =>
    intro st h
    have hch : ch.doorbell ≠ v := h ch (by simp)
    unfold getLastWriteLoop
    rw [if_neg hch, ih st (fun x hx => h x (by simp [hx]))]

/-- C7: for every doorbell-ring register write with rung value `v` and every
discovered channel, the channel is polled in the write direction — its
cursor/dedup state updated by `get_message` — exactly when its doorbell
value `1 <<< source` equals `v`; channels whose doorbell does not match are
left untouched by the event, and if no channel matches the event changes
nothing at all. -/
theorem doorbell_write_poll (channel_list : List ISPChannel)
    (buffer_address : Option Nat) (mem : Nat → Nat) (v : Nat) :
    (ISPTracer.get_last_write_command channel_list buffer_address mem v).1 =
      (channel_list.filter fun ch => ch.doorbell = v).map (·.name) ∧
    (ISPTracer.get_last_write_command channel_list buffer_address mem v).2.2.1 =
      channel_list.map
        (fun ch => if ch.doorbell = v then (ch.get_message .LAST_WRITE mem).2
                   else ch) ∧
    ((∀ ch ∈ channel_list, ch.doorbell ≠ v) →
      ISPTracer.get_last_write_command channel_list buffer_address mem v =
        ([], [], channel_list, buffer_address)) :=
  ⟨getLastWriteLoop_names mem v channel_list buffer_address,
   getLastWriteLoop_channels mem v channel_list buffer_address,
   fun h => getLastWriteLoop_no_match mem v channel_list buffer_address h⟩

/-- Witness channels for C7: sources 3 and 0, hence doorbells 8 and 1. -/
def cW7a : ISPChannel := ISPChannel.init [87] 0 3 1 1 0

/-- Second witness channel for C7. -/
def cW7b : ISPChannel := ISPChannel.init [88] 0 0 1 1 0

theorem doorbell_write_poll_witness :
    (ISPTracer.get_last_write_command [cW7a, cW7b] none memW1 8).1 = [[87]] ∧
    (ISPTracer.get_last_write_command [cW7a, cW7b] none memW1 8).2.2.1 =
      [(cW7a.get_message .LAST_WRITE memW1).2, cW7b] ∧
    ISPTracer.get_last_write_command [cW7a, cW7b] none memW1 4 =
      ([], [], [cW7a, cW7b], none) := by
  have h := doorbell_write_poll [cW7a, cW7b] none memW1 8
  have h4 := doorbell_write_poll [cW7a, cW7b] none memW1 4
  refine ⟨?_, ?_, h4.2.2 (by decide)⟩
  · rw [h.1]
    decide
  · rw [h.2.1]
    decide

theorem getLastReadLoop_names (mem : Nat → Nat) (v : Nat) :
    ∀ (chs : List ISPChannel) (st : Option Nat),
      (getLastReadLoop mem v chs st).1 =
        (chs.filter fun ch => v >>> (ch.type &&& 1) ≠ 0).map (·.name) := by
  intro chs
  induction chs with
  | nil => intro st; rfl
  | cons ch rest ih =>
    intro st
    unfold getLastReadLoop
    by_cases h : v >>> (ch.type &&& 1) ≠ 0
    · have h2 : v >>> (ch.type % 2) ≠ 0 := by
        rwa [Nat.and_one_is_mod] at h
      simp [h, h2, List.filter_cons, ih]
    · have h2 : ¬ (v >>> (ch.type % 2) ≠ 0) := by
        rwa [Nat.and_one_is_mod] at h
      simp [h, h2, List.filter_cons, ih]

theorem getLastReadLoop_channels (mem : Nat → Nat) (v : Nat) :
    ∀ (chs : List ISPChannel) (st : Option Nat),
      (getLastReadLoop mem v chs st).2.2.1 =
        chs.map fun ch =>
          if v >>> (ch.type &&& 1) ≠ 0 then (ch.get_message .LAST_READ mem).2
          else ch := by
  intro chs
  induction chs with
  | nil => intro st; rfl
  | cons ch rest ih =>
    intro st
    unfold getLastReadLoop
    by_cases h : v >>> (ch.type &&& 1) ≠ 0
    · have h2 : v >>> (ch.type % 2) ≠ 0 := by
        rwa [Nat.and_one_is_mod] at h
      simp [h, h2, ih, get_commands_channel]
    · have h2 : v >>> (ch.type % 2) = 0 := by
        have h3 := not_ne_iff.mp h
        rwa [Nat.and_one_is_mod] at h3
      simp [h, h2, ih]

theorem getLastReadLoop_no_match (mem : Nat → Nat) (v : Nat) :
    ∀ (chs : List ISPChannel) (st : Option Nat),
      (∀ ch ∈ chs, v >>> (ch.type &&& 1) = 0) →
      getLastReadLoop mem v chs st = ([], [], chs, st) := by
  intro chs
  induction chs with
  | nil => intro st _; rfl
  | cons ch rest ih =>
    intro st h
    have hch : ¬ (v >>> (ch.type &&& 1) ≠ 0) := by
      simpa using h ch (by simp)
    unfold getLastReadLoop
    rw [if_neg hch, ih st fun x hx => h x (by simp [hx])]

/-- C8 counterexample channel: type 0, one 1-byte entry at address 0. -/
def cexChannel8 : ISPChannel := ISPChannel.init [88] 0 0 1 1 0

/-- C8 counterexample: with pending mask 2, a channel of type 0 does not
have its type bit (bit 0) set in the mask — the claim's condition is false —
yet the handler polls and scans it, because the code's condition is
`pending_irq >> (type & 1) != 0`, which holds for every mask of at least 2. -/
theorem irq_read_poll_counterexample :
    typeBitMatches 2 cexChannel8.type = false ∧
    (ISPTracer.get_last_read_command [cexChannel8] none memZero 2).1 =
      [[88]] := by
  refine ⟨by decide, by decide⟩

/-- C8 (amended): for every interrupt-pending register read with pending
mask `m` and every discovered channel, the channel is polled in the read
direction exactly when `m >>> (type &&& 1)` is nonzero — i.e. any mask of at
least 2 polls every channel, mask 1 polls exactly the channels of even type,
and mask 0 polls none; channels failing the condition are left untouched. -/
theorem irq_read_poll (channel_list : List ISPChannel)
    (buffer_address : Option Nat) (mem : Nat → Nat) (m : Nat) :
    (ISPTracer.get_last_read_command channel_list buffer_address mem m).1 =
      (channel_list.filter fun ch => m >>> (ch.type &&& 1) ≠ 0).map (·.name) ∧
    (ISPTracer.get_last_read_command channel_list buffer_address mem m).2.2.1 =
      channel_list.map
        (fun ch => if m >>> (ch.type &&& 1) ≠ 0 then
                     (ch.get_message .LAST_READ mem).2
                   else ch) ∧
    ((∀ ch ∈ channel_list, m >>> (ch.type &&& 1) = 0) →
      ISPTracer.get_last_read_command channel_list buffer_address mem m =
        ([], [], channel_list, buffer_address)) :=
  ⟨getLastReadLoop_names mem m channel_list buffer_address,
   getLastReadLoop_channels mem m channel_list buffer_address,
   fun h => getLastReadLoop_no_match mem m channel_list buffer_address h⟩

/-- Witness channel for C8: odd type, so mask 1 must not poll it. -/
def cW8 : ISPChannel := ISPChannel.init [89] 1 0 1 1 0

theorem irq_read_poll_witness :
    (ISPTracer.get_last_read_command [cW8, cexChannel8] none memW1 1).1 =
      [[88]] ∧
    (ISPTracer.get_last_read_command [cW8, cexChannel8] none memW1 1).2.2.1 =
      [cW8, (cexChannel8.get_message .LAST_READ memW1).2] ∧
    ISPTracer.get_last_read_command [cW8, cexChannel8] none memW1 0 =
      ([], [], [cW8, cexChannel8], none) := by
  have h := irq_read_poll [cW8, cexChannel8] none memW1 1
  have h0 := irq_read_poll [cW8, cexChannel8] none memW1 0
  refine ⟨?_, ?_, h0.2.2 (by decide)⟩
  · rw [h.1]
    decide
  · rw [h.2.1]
    decide

/- C9: the multi-DART stream-command invalidation. -/

theorem streamCommandLoop_first_match (addr : Nat) :
    ∀ (pre : List MDARTUnit) (u : MDARTUnit) (post : List MDARTUnit),
      (∀ w ∈ pre, w.lookup_addr addr = none) →
      u.lookup_addr addr ≠ none →
      streamCommandLoop (pre ++ u :: post) addr =
        pre ++ u.invalidate_cache :: post := by
  intro pre
  induction pre with
  | nil =>
    intro u post _ hmatch
    rcases h : u.lookup_addr addr with _ | x
    · exact absurd h hmatch
    · simp [streamCommandLoop, h]
  | cons w pre ih =>
    intro u post hpre hmatch
    have hw : w.lookup_addr addr = none := hpre w (by simp)
    simp only [List.cons_append, streamCommandLoop, hw, List.append_eq]
    rw [ih u post (fun x hx => hpre x (by simp [hx])) hmatch]

/-- C9: for every observed write to the stream-command control register, if
the written value encodes the invalidate-request bit then the translation
cache of the (first, hence unique when ranges are disjoint) unit whose
register address range contains the write's address is invalidated while
every other unit is left unchanged; and if the invalidate bit is not set, no
unit is touched and the component's state is unchanged. -/
theorem stream_command_invalidate (units : List MDARTUnit) (inv : Bool)
    (addr : Nat) :
    (inv = false → MDARTTracer.w_STREAM_COMMAND units inv addr = units) ∧
    (∀ pre u post, units = pre ++ u :: post →
      (∀ w ∈ pre, w.lookup_addr addr = none) →
      u.lookup_addr addr ≠ none →
      MDARTTracer.w_STREAM_COMMAND units true addr =
        pre ++ u.invalidate_cache :: post) := by
  constructor
  · intro h
    subst h
    rfl
  · intro pre u post hu hpre hmatch
    subst hu
    unfold MDARTTracer.w_STREAM_COMMAND
    rw [if_pos rfl]
    exact streamCommandLoop_first_match addr pre u post hpre hmatch

/-- Witness units for C9: disjoint register ranges with nonempty caches. -/
def uW9a : MDARTUnit := ⟨0x100, 0x200, [(1, 2)]⟩

/-- Second witness unit for C9. -/
def uW9b : MDARTUnit := ⟨0x200, 0x300, [(3, 4)]⟩

theorem stream_command_invalidate_witness :
    MDARTTracer.w_STREAM_COMMAND [uW9a, uW9b] false 0x250 = [uW9a, uW9b] ∧
    MDARTTracer.w_STREAM_COMMAND [uW9a, uW9b] true 0x250 =
      [uW9a, uW9b.invalidate_cache] := by
  have h := stream_command_invalidate [uW9a, uW9b] false 0x250
  have h2 := stream_command_invalidate [uW9a, uW9b] true 0x250
  refine ⟨h.1 rfl, ?_⟩
  have h3 := h2.2 [uW9a] uW9b [] rfl (by decide) (by decide)
  simpa using h3

end ISPTrace
